import Mathlib

/-!
Shallow embedding of `src/polemarch/api/v2/serializers.py` (polemarch, API v2
serializers) together with theorems checking the natural-language specification
against it.

Conventions of the embedding:
* Python dictionaries carrying variables are association lists
  `List (String × String)`; dictionary read is `lookupVar`, membership test
  (`key in d.keys()`) is `hasKey`, and item assignment is `setVar`.
* Raised exceptions become the `ApiError` inductive; a fallible operation
  returns `Except ApiError α`.
* `transaction.atomic` (used by `permissions`, `__permission_set`,
  `_do_with_vars`) is modelled by `runAtomic`: when the body fails, the
  pre-call state is returned unchanged (rollback); when it succeeds, the
  mutated state is returned.
* Machine-level details (HTTP transport, Django ORM row objects) are elided;
  an ACL is an owner id plus a list of `ACLEntry` rows in insertion order.
-/

namespace Polemarch

/-- The sentinel literal used by every masking path in the file
(`VariableSerializer.to_representation`,
`_WithVariablesSerializer.to_representation`,
`TemplateSerializer.set_opts_vars`). -/
def encryptedSentinel : String := "[~~ENCRYPTED~~]"

/-- Exceptions raised by the serializer layer.

* `permissionDenied` — `rest_framework.exceptions.PermissionDenied` (HTTP 403);
* `valueError` — the built-in Python `ValueError` raised by
  `_WithPermissionsSerializer.__duplicates_check` (uncaught by the
  serializer, so it is not a DRF validation failure);
* `validationError` — `rest_framework.exceptions.ValidationError`
  (default `status_code` 400), raised by `_WithVariablesSerializer.update`;
* `conflictError` — `OneGroupSerializer.ValidationException`, the subclass
  of `ValidationError` declaring `status_code = 409`;
* `notApplicable` — `main.exceptions.NotApplicable` raised by
  `PeriodictaskSerializer.permissions` / `.owner`;
* `notFound` — `DoesNotExist` escaping `Inventory.objects.get`;
* `attributeError` — Python `AttributeError` (attribute access on `None`). -/
inductive ApiError where
  | permissionDenied (msg : String)
  | valueError (msg : String)
  | validationError (msg : String)
  | conflictError (msg : String)
  | notApplicable (msg : String)
  | notFound (msg : String)
  | attributeError (msg : String)
  deriving DecidableEq, Repr

/-- Classifier: did the call fail with a DRF `ValidationError` (the base
class with `status_code` 400, not the Python builtin `ValueError`)? -/
def raisesValidationError {α : Type} : Except ApiError α → Bool
  | .error (.validationError _) => true
  | _ => false

/-- Classifier: did the call fail with the 409 `ValidationException`
subclass (the "Conflict" category of the specification)? -/
def raisesConflict {α : Type} : Except ApiError α → Bool
  | .error (.conflictError _) => true
  | _ => false

/-- One row of `models.ACLPermission`, as exposed by `PermissionsSerializer`
(fields `member`, `member_type`, `role`). `member` is an integer id;
`member_type` is `"user"` or `"team"`; `role` is `"MASTER"`, `"EDITOR"` or
`"EXECUTOR"`. -/
structure ACLEntry where
  member : Nat
  member_type : String
  role : String
  deriving DecidableEq, Repr

/-- The ACL attached to one entity: the `owner` field plus the related
`acl` rows in insertion order. -/
structure ACLState where
  owner : Nat
  entries : List ACLEntry
  deriving DecidableEq, Repr

/-- The identifying pair of an entry. `__duplicates_check` builds
`frozenset({e["member"], e["member_type"]})`; with integer members and
string member types no two distinct pairs give the same frozenset, so the
frozenset is equivalent to the ordered pair. -/
def entryKey (e : ACLEntry) : Nat × String := (e.member, e.member_type)

/-- Embedding of `_WithPermissionsSerializer.__duplicates_check`: collect
the `(member, member_type)` keys and fail when the list is shorter after
removing duplicates. Note the raised exception is the Python builtin
`ValueError`, not a DRF `ValidationError`. -/
def duplicatesCheck (data : List ACLEntry) : Except ApiError Unit :=
  if (data.map entryKey).length ≠ (data.map entryKey).dedup.length then
    .error (.valueError "There is duplicates in your permissions set.")
  else
    .ok ()

/-- Does `x` carry the same `(member, member_type)` key as `e`? This is the
filter `acl.all().extend().filter(member=..., member_type=...)`. -/
def sameKey (x e : ACLEntry) : Bool :=
  x.member == e.member && x.member_type == e.member_type

/-- Embedding of the `.filter(member=..., member_type=...).delete()` call in
`__permission_set`: drop every row whose key equals the incoming entry's. -/
def removeMatching (entries : List ACLEntry) (e : ACLEntry) : List ACLEntry :=
  entries.filter (fun x => !(sameKey x e))

/-- One iteration of the `for permission_args in data` loop of
`_WithPermissionsSerializer.__permission_set`: optionally delete the old
row with the same key, then `acl.create(**permission_args)` (append). -/
def permissionSetStep (removeOld : Bool) (acc : ACLState) (e : ACLEntry) : ACLState :=
  let entries := if removeOld then removeMatching acc.entries e else acc.entries
  { acc with entries := entries ++ [e] }

/-- Embedding of `_WithPermissionsSerializer.__permission_set`: duplicates
check, then the insertion loop. (The method is itself `transaction.atomic`;
failure of the check leaves the state untouched, which the `Except` return
makes structural.) -/
def permissionSet (acl : ACLState) (data : List ACLEntry) (removeOld : Bool) :
    Except ApiError ACLState :=
  match duplicatesCheck data with
  | .error err => .error err
  | .ok _ => .ok (data.foldl (permissionSetStep removeOld) acl)

/-- The HTTP verbs dispatched by `_WithPermissionsSerializer.permissions`. -/
inductive HttpMethod where
  | GET | POST | PUT | DELETE
  deriving DecidableEq, Repr

/-- The class attribute `perms_msg` of `_WithPermissionsSerializer`. -/
def perms_msg : String := "You do not have permission to perform this action."

/-- Modelled from the spec: `__get_all_permission_serializer` serializes
`self.instance.acl.all()`; the ACL model class is not under `src/`, and the
spec states that listing "returns all entries plus owner", so the response
is modelled as the owner id together with the full entry list. -/
def getAllPermissions (acl : ACLState) : Nat × List ACLEntry :=
  (acl.owner, acl.entries)

/-- Modelled from the spec: `filter_by_data` (vstutils, not under `src/`)
selects the rows matching the request data; `remove_permissions` "removes
entries matching the filter", so the DELETE branch keeps exactly the rows
matching none of the given `(member, member_type)` keys. -/
def deleteByData (entries data : List ACLEntry) : List ACLEntry :=
  entries.filter (fun e => !(data.any (fun d => sameKey e d)))

/-- Body of `_WithPermissionsSerializer.permissions` before the enclosing
`transaction.atomic` is applied. `manageable` is the value of
`self.instance.acl_handler.manageable_by(user)` (the handler class is not
under `src/`, so it enters as a boolean input). On success the new ACL
state and the `Response` payload (all rows plus owner, HTTP 200) are
returned. -/
def permissionsBody (acl : ACLState) (manageable : Bool) (method : HttpMethod)
    (data : List ACLEntry) :
    Except ApiError (ACLState × (Nat × List ACLEntry)) :=
  if method ≠ HttpMethod.GET ∧ manageable = false then
    .error (.permissionDenied perms_msg)
  else
    match method with
    | HttpMethod.DELETE =>
        let acl1 : ACLState := { acl with entries := deleteByData acl.entries data }
        .ok (acl1, getAllPermissions acl1)
    | HttpMethod.POST =>
        match permissionSet acl data true with
        | .error err => .error err
        | .ok acl1 => .ok (acl1, getAllPermissions acl1)
    | HttpMethod.PUT =>
        match permissionSet { acl with entries := [] } data false with
        | .error err => .error err
        | .ok acl1 => .ok (acl1, getAllPermissions acl1)
    | HttpMethod.GET =>
        .ok (acl, getAllPermissions acl)

/-- Embedding of `django.db.transaction.atomic` around a state-transforming
body: a failing body rolls the state back to the pre-call snapshot. -/
def runAtomic {σ α : Type} (s : σ) (r : Except ApiError (σ × α)) :
    σ × Except ApiError α :=
  match r with
  | .ok (s1, a) => (s1, .ok a)
  | .error e => (s, .error e)

/-- Embedding of `_WithPermissionsSerializer.permissions` (which is
decorated with `transaction.atomic`): returns the ACL state observable
after the call together with the outcome. -/
def permissions (acl : ACLState) (manageable : Bool) (method : HttpMethod)
    (data : List ACLEntry) :
    ACLState × Except ApiError (Nat × List ACLEntry) :=
  runAtomic acl (permissionsBody acl manageable method data)

/-! Variable maps and masking
(`VariableSerializer.to_representation`,
`_WithVariablesSerializer.to_representation`). -/

/-- Dictionary read `d[k]` on a variable map. -/
def lookupVar (vars : List (String × String)) (k : String) : Option String :=
  match vars with
  | [] => none
  | kv :: rest => if kv.1 = k then some kv.2 else lookupVar rest k

/-- Membership test `k in d.keys()` on a variable map. -/
def hasKey (vars : List (String × String)) (k : String) : Bool :=
  match vars with
  | [] => false
  | kv :: rest => kv.1 == k || hasKey rest k

/-- Dictionary item assignment `d[k] = v`: every pairing of the key is
updated (a Python dict holds the key at most once, so on well-formed maps
this is the single-slot update). -/
def setVar (vars : List (String × String)) (k v : String) : List (String × String) :=
  vars.map (fun kv => if kv.1 = k then (k, v) else kv)

/-- The masking loop shared by `_WithVariablesSerializer.to_representation`
and `TemplateSerializer.set_opts_vars`:
`for mask_key in hidden_vars: if mask_key in vars.keys(): vars[mask_key] = "[~~ENCRYPTED~~]"`. -/
def maskVars (hv : List String) (vars : List (String × String)) : List (String × String) :=
  hv.foldl (fun acc mk => if hasKey acc mk then setVar acc mk encryptedSentinel else acc) vars

/-- Embedding of `VariableSerializer.to_representation` for one stored
variable row: `hiddenVars` is `getattr(instance.content_object, "HIDDEN_VARS", [])`;
the rendered `(key, value)` pair replaces the value by the sentinel exactly
when the key is hidden. -/
def variableToRepresentation (hiddenVars : List String) (key value : String) :
    String × String :=
  if key ∈ hiddenVars then (key, encryptedSentinel) else (key, value)

/-- Embedding of `_WithVariablesSerializer.to_representation` restricted to
the part the masking touches: `instanceHidden` is
`getattr(instance, "HIDDEN_VARS", [])`, `hiddenVarsArg` the optional
`hidden_vars` argument (`none` means the Python default `None`), and `vars`
the `vars` slot of the representation (`none` when absent). The stored
variables are an input only; the function builds a fresh representation. -/
def withVariablesToRepresentation (instanceHidden : List String)
    (hiddenVarsArg : Option (List String))
    (vars : Option (List (String × String))) : Option (List (String × String)) :=
  let hv := hiddenVarsArg.getD instanceHidden
  vars.map (maskVars hv)

/-! Template rendering (`TemplateSerializer`). -/

/-- The representation of one entry of a Template's `options` map: the
optional nested `vars` dictionary plus the remaining fields, which
`set_opts_vars` never touches. -/
structure OptionRep where
  vars : Option (List (String × String))
  extra : List (String × String)
  deriving DecidableEq, Repr

/-- Embedding of `TemplateSerializer.set_opts_vars`: a falsy `vars` slot
(absent or empty) is returned untouched; otherwise the masking loop runs
with the given hidden set. -/
def setOptsVars (hv : List String) (rep : OptionRep) : OptionRep :=
  match rep.vars with
  | none => rep
  | some vs => if vs = [] then rep else { rep with vars := some (maskVars hv vs) }

/-- Embedding of `TemplateSerializer.repr_options`: apply `set_opts_vars`
to every named option, with `hiddenVarsArg = none` falling back to
`instance.HIDDEN_VARS`. -/
def reprOptions (instanceHidden : List String) (hiddenVarsArg : Option (List String))
    (options : List (String × OptionRep)) : List (String × OptionRep) :=
  let hv := hiddenVarsArg.getD instanceHidden
  options.map (fun p => (p.1, setOptsVars hv p.2))

/-- The slots of a Template instance that `TemplateSerializer.to_representation`
reads: the `kind` field, the model's `HIDDEN_VARS` constant, the
`data.vars` slot of the base representation (`TemplateSerializer.get_vars`
returns `representation["data"]["vars"]`, `none` on `KeyError`), and the
`options` map of the representation. -/
structure TemplateInstance where
  kind : String
  hiddenVars : List String
  dataVars : Option (List (String × String))
  options : List (String × OptionRep)
  deriving DecidableEq, Repr

/-- The non-empty rendering of a template: the masked `data.vars` slot and
the masked options. -/
structure TemplateRepData where
  dataVars : Option (List (String × String))
  options : List (String × OptionRep)
  deriving DecidableEq, Repr

/-- Embedding of `TemplateSerializer.to_representation`. `ptHiddenVars`
stands for the constant `models.PeriodicTask.HIDDEN_VARS` (the models
module is not under `src/`, so the constant enters as an input). For a
`kind` outside `["Task", "Module"]` the method returns the empty
`OrderedDict()`, modelled as `none`; otherwise the base representation is
built with `hidden_vars = ptHiddenVars` and `repr_options` runs with the
same set. -/
def templateToRepresentation (ptHiddenVars : List String) (inst : TemplateInstance) :
    Option TemplateRepData :=
  if inst.kind = "Task" ∨ inst.kind = "Module" then
    some
      { dataVars :=
          withVariablesToRepresentation inst.hiddenVars (some ptHiddenVars) inst.dataVars
      , options := reprOptions inst.hiddenVars (some ptHiddenVars) inst.options }
  else
    none

/-! Periodic tasks (`PeriodictaskSerializer._do_with_vars`). -/

/-- The slice of a referenced Template that `_do_with_vars` reads:
`template.project`. -/
structure TemplateRef where
  project : Nat
  deriving DecidableEq, Repr

/-- The validated data of a PeriodicTask write, with `none` marking an
absent key. -/
structure PTValidatedData where
  kind : Option String
  inventory : Option String
  mode : Option String
  template : Option TemplateRef
  project : Option Nat
  deriving DecidableEq, Repr

/-- Embedding of `PeriodictaskSerializer._do_with_vars`: when the validated
`kind` is `"TEMPLATE"`, the project is taken from the referenced template
and `inventory` and `mode` are overwritten with empty strings before the
instance is saved; otherwise the data passes through unchanged. A missing
template with `kind == "TEMPLATE"` hits `template.project` on `None`
(`AttributeError`). The resulting data is what the superclass stores on
the instance. -/
def periodictaskDoWithVars (kw : PTValidatedData) : Except ApiError PTValidatedData :=
  if kw.kind = some "TEMPLATE" then
    match kw.template with
    | none => .error (.attributeError "NoneType object has no attribute project")
    | some t =>
        .ok { kw with project := some t.project, inventory := some "", mode := some "" }
  else
    .ok kw

/-! Group updates (`_WithVariablesSerializer.update`,
`OneGroupSerializer`). -/

/-- The slots of a stored Group that the update path touches or must leave
alone: the `children` flag, the member `hosts` and `groups` (read-only in
the serializer), and the writable `name`. -/
structure GroupInstance where
  children : Bool
  hosts : List Nat
  groups : List Nat
  name : String
  deriving DecidableEq, Repr

/-- The validated data of a Group update; `hosts` and `groups` are
read-only fields and never appear here. -/
structure GroupUpdateData where
  children : Option Bool
  name : Option String
  deriving DecidableEq, Repr

/-- The field assignment performed by `ModelSerializer.update` once
`_do_with_vars` reaches it: writable validated fields are copied onto the
instance. -/
def applyGroupUpdate (inst : GroupInstance) (d : GroupUpdateData) : GroupInstance :=
  { inst with
      children := d.children.getD inst.children
      name := d.name.getD inst.name }

/-- Embedding of `_WithVariablesSerializer.update` on a Group:
`children_instance = getattr(instance, "children", False)`; if the
validated data carries a different `children` value the method raises
`rest_framework.exceptions.ValidationError` (the base class, default
`status_code` 400) before anything is written; otherwise the update is
applied. The pair returns the instance state observable after the call. -/
def withVariablesUpdate (inst : GroupInstance) (d : GroupUpdateData) :
    GroupInstance × Except ApiError Unit :=
  let children_instance := inst.children
  if d.children.getD children_instance ≠ children_instance then
    (inst, .error (.validationError "Children not allowed to update."))
  else
    (applyGroupUpdate inst d, .ok ())

/-! Execution (`OneProjectSerializer._execution`). -/

/-- Decimal digit value of a character, `none` for a non-digit. -/
def charDigit (c : Char) : Option Nat :=
  if 48 ≤ c.toNat ∧ c.toNat ≤ 57 then some (c.toNat - 48) else none

/-- Left-to-right accumulation of a decimal digit string; `none` as soon as
a non-digit appears. -/
def digitsToNat (cs : List Char) (acc : Nat) : Option Nat :=
  match cs with
  | [] => some acc
  | c :: rest =>
      match charDigit c with
      | none => none
      | some d => digitsToNat rest (acc * 10 + d)

/-- Model of Python `int(s)` on the popped `inventory` field: an optional
sign followed by at least one decimal digit; `none` models the raised
`ValueError`. (Surrounding whitespace and underscore separators, which
CPython would also accept, are not modelled.) -/
def pyIntOfString (s : String) : Option Int :=
  match s.data with
  | [] => none
  | c :: rest =>
      if c = '-' then
        if rest = [] then none else (digitsToNat rest 0).map (fun n => -(n : Int))
      else if c = '+' then
        if rest = [] then none else (digitsToNat rest 0).map (fun n => (n : Int))
      else
        (digitsToNat (c :: rest) 0).map (fun n => (n : Int))

/-- The inventory argument finally handed to `self.instance.execute`:
either the resolved Inventory entity or the raw inline payload. -/
inductive InventoryArg where
  | resolved (id : Int)
  | raw (s : String)
  deriving DecidableEq, Repr

/-- The `Response` data built at the end of `_execution`: initiator type
and id, the history id returned by `execute`, and the HTTP status 201. -/
structure ExecutionResult where
  initiator_type : String
  initiator : Nat
  history_id : Nat
  status : Nat
  deriving DecidableEq, Repr

/-- The initiator bookkeeping of `_execution`: with a template the
initiator is the template id and `init_type` is `"template"`, otherwise
the project id with `"project"`. -/
def mkExecResult (projectId : Nat) (templateId : Option Nat) (historyId : Nat) :
    ExecutionResult :=
  match templateId with
  | some t => { initiator_type := "template", initiator := t
              , history_id := historyId, status := 201 }
  | none => { initiator_type := "project", initiator := projectId
            , history_id := historyId, status := 201 }

/-- Embedding of `OneProjectSerializer._execution`. `invIds` are the ids
present in the Inventory table; `viewable` is
`inventory.acl_handler.viewable_by(user)` as a function of the resolved id
(the handler class is not under `src/`, so it enters as an input);
`historyId` is the id returned by the external `execute` call. When
`int(inventory)` raises `ValueError` the raw payload is passed through with
no permission check; when it parses, the entity is fetched (`DoesNotExist`
propagates) and a non-viewable inventory raises `PermissionDenied` before
any dispatch. -/
def projectExecution (invIds : List Int) (viewable : Int → Bool)
    (projectId : Nat) (templateId : Option Nat) (historyId : Nat)
    (invField : String) : Except ApiError (InventoryArg × ExecutionResult) :=
  match pyIntOfString invField with
  | none => .ok (.raw invField, mkExecResult projectId templateId historyId)
  | some i =>
      if i ∈ invIds then
        if viewable i then
          .ok (.resolved i, mkExecResult projectId templateId historyId)
        else
          .error (.permissionDenied "You do not have permission to inventory.")
      else
        .error (.notFound "Inventory matching query does not exist.")

/-! Auxiliary observation functions and concrete inputs used by the
theorems below. -/

/-- Look up the role granted to `(m, t)` in an entry list (first match, as
a queryset `get` on the key would return). -/
def findRole (entries : List ACLEntry) (m : Nat) (t : String) : Option String :=
  match entries with
  | [] => none
  | e :: rest =>
      if e.member = m ∧ e.member_type = t then some e.role else findRole rest m t

/-- A permissions batch holding two entries for the same `(member,
member_type)` pair. -/
def dupPermData : List ACLEntry :=
  [⟨1, "user", "MASTER"⟩, ⟨1, "user", "EXECUTOR"⟩]

/-- A concrete pre-call ACL. -/
def aclBefore : ACLState := ⟨7, [⟨2, "team", "EDITOR"⟩]⟩

/-- A TEMPLATE-kind periodic-task write that supplies a non-empty
inventory and mode. -/
def ptTemplateReq : PTValidatedData :=
  ⟨some "TEMPLATE", some "inventory-1", some "site.yml", some ⟨5⟩, none⟩

/-- A concrete stored group with children allowed and some members. -/
def group0 : GroupInstance := ⟨true, [1, 2], [3], "g1"⟩

/-- A concrete Task-kind template carrying a hidden variable both in its
base variables and inside one option. -/
def tmplInst0 : TemplateInstance :=
  ⟨"Task", [], some [("repo_password", "p1")],
    [("opt1", ⟨some [("repo_password", "p2")], [("module", "ping")]⟩)]⟩

/-! Helper lemmas about the embedding. -/

theorem sameKey_iff_fields (x e : ACLEntry) :
    sameKey x e = true ↔ (x.member = e.member ∧ x.member_type = e.member_type) := by
  simp [sameKey, Bool.and_eq_true]

theorem entryKey_eq_iff (x e : ACLEntry) :
    entryKey x = entryKey e ↔ (x.member = e.member ∧ x.member_type = e.member_type) := by
  simp [entryKey, Prod.ext_iff]

theorem sameKey_eq_true_iff (x e : ACLEntry) :
    sameKey x e = true ↔ entryKey x = entryKey e := by
  rw [sameKey_iff_fields, entryKey_eq_iff]

theorem removeMatching_cons (a : ACLEntry) (t : List ACLEntry) (e : ACLEntry) :
    removeMatching (a :: t) e
      = if sameKey a e = true then removeMatching t e else a :: removeMatching t e := by
  unfold removeMatching
  rw [List.filter_cons]
  by_cases h : sameKey a e <;> simp [h]

theorem removeMatching_eq_self (es : List ACLEntry) (e : ACLEntry)
    (h : ∀ x ∈ es, entryKey x ≠ entryKey e) : removeMatching es e = es := by
  induction es with
  | nil => rfl
  | cons a t ih =>
      rw [removeMatching_cons, if_neg, ih (fun x hx => h x (List.mem_cons_of_mem a hx))]
      intro hc
      exact h a (List.mem_cons_self a t) ((sameKey_eq_true_iff a e).1 hc)

theorem removeMatching_length (es : List ACLEntry) (e : ACLEntry)
    (hnd : (es.map entryKey).Nodup) (hex : ∃ x ∈ es, entryKey x = entryKey e) :
    (removeMatching es e).length + 1 = es.length := by
  induction es with
  | nil => simp at hex
  | cons a t ih =>
      rw [List.map_cons, List.nodup_cons] at hnd
      by_cases ha : entryKey a = entryKey e
      · have ht : ∀ x ∈ t, entryKey x ≠ entryKey e := by
          intro x hx hxe
          apply hnd.1
          rw [ha, ← hxe]
          exact List.mem_map_of_mem entryKey hx
        rw [removeMatching_cons, if_pos ((sameKey_eq_true_iff a e).2 ha),
          removeMatching_eq_self t e ht]
        simp
      · have hex2 : ∃ x ∈ t, entryKey x = entryKey e := by
          rcases hex with ⟨x, hx, hxe⟩
          rcases List.mem_cons.1 hx with hxa | hxt
          · exact absurd (hxa ▸ hxe) ha
          · exact ⟨x, hxt, hxe⟩
        have hsk : ¬ sameKey a e = true := fun hc =>
          ha ((sameKey_eq_true_iff a e).1 hc)
        rw [removeMatching_cons, if_neg hsk]
        simp only [List.length_cons]
        rw [← ih hnd.2 hex2]

theorem findRole_remove_append (es : List ACLEntry) (e : ACLEntry) :
    findRole (removeMatching es e ++ [e]) e.member e.member_type = some e.role := by
  induction es with
  | nil => simp [removeMatching, findRole]
  | cons a t ih =>
      rw [removeMatching_cons]
      by_cases h : sameKey a e = true
      · rw [if_pos h]
        exact ih
      · rw [if_neg h, List.cons_append]
        have hfields : ¬ (a.member = e.member ∧ a.member_type = e.member_type) :=
          fun hc => h ((sameKey_iff_fields a e).2 hc)
        simp only [findRole, if_neg hfields]
        exact ih

theorem foldl_step_false (S : List ACLEntry) (o : Nat) (es : List ACLEntry) :
    S.foldl (permissionSetStep false) ⟨o, es⟩ = ⟨o, es ++ S⟩ := by
  induction S generalizing es with
  | nil => simp
  | cons e t ih =>
      rw [List.foldl_cons]
      show t.foldl (permissionSetStep false) ⟨o, es ++ [e]⟩ = _
      rw [ih]
      simp

theorem hasKey_false_lookup (vars : List (String × String)) (k : String)
    (h : hasKey vars k = false) : lookupVar vars k = none := by
  induction vars with
  | nil => rfl
  | cons kv rest ih =>
      simp only [hasKey, Bool.or_eq_false_iff] at h
      have hne : kv.1 ≠ k := by
        intro he
        simp [he] at h
      simp only [lookupVar, if_neg hne]
      exact ih h.2

theorem lookupVar_cons (kv : String × String) (rest : List (String × String))
    (k : String) :
    lookupVar (kv :: rest) k = if kv.1 = k then some kv.2 else lookupVar rest k := rfl

theorem setVar_cons (kv : String × String) (rest : List (String × String))
    (k v : String) :
    setVar (kv :: rest) k v = (if kv.1 = k then (k, v) else kv) :: setVar rest k v := rfl

theorem lookupVar_setVar_ne (vars : List (String × String)) (k v k1 : String)
    (hne : k1 ≠ k) : lookupVar (setVar vars k v) k1 = lookupVar vars k1 := by
  induction vars with
  | nil => rfl
  | cons kv rest ih =>
      have hk1 : ¬ (k = k1) := fun he => hne he.symm
      rw [setVar_cons]
      by_cases h : kv.1 = k
      · rw [if_pos h, lookupVar_cons, lookupVar_cons]
        have hkv : ¬ (kv.1 = k1) := by
          rw [h]
          exact hk1
        rw [if_neg hk1, if_neg hkv]
        exact ih
      · rw [if_neg h, lookupVar_cons, lookupVar_cons]
        by_cases h1 : kv.1 = k1
        · rw [if_pos h1, if_pos h1]
        · rw [if_neg h1, if_neg h1]
          exact ih

theorem lookupVar_setVar_self (vars : List (String × String)) (k v : String) :
    lookupVar (setVar vars k v) k = (lookupVar vars k).map (fun _ => v) := by
  induction vars with
  | nil => rfl
  | cons kv rest ih =>
      rw [setVar_cons]
      by_cases h : kv.1 = k
      · rw [if_pos h, lookupVar_cons, lookupVar_cons, if_pos rfl, if_pos h]
        rfl
      · rw [if_neg h, lookupVar_cons, lookupVar_cons, if_neg h, if_neg h]
        exact ih

theorem maskVars_cons (h : String) (t : List String) (vars : List (String × String)) :
    maskVars (h :: t) vars
      = maskVars t (if hasKey vars h then setVar vars h encryptedSentinel else vars) := rfl

theorem maskVars_nil_vars (hv : List String) : maskVars hv [] = [] := by
  induction hv with
  | nil => rfl
  | cons h t ih =>
      rw [maskVars_cons]
      simp [hasKey, ih]

theorem maskVars_lookup_not_mem (hv : List String) (vars : List (String × String))
    (k : String) (hk : k ∉ hv) :
    lookupVar (maskVars hv vars) k = lookupVar vars k := by
  induction hv generalizing vars with
  | nil => rfl
  | cons h t ih =>
      have hkh : k ≠ h := fun e => hk (e ▸ List.mem_cons_self h t)
      have hkt : k ∉ t := fun m => hk (List.mem_cons_of_mem h m)
      rw [maskVars_cons, ih _ hkt]
      by_cases hh : hasKey vars h
      · simp [hh, lookupVar_setVar_ne _ _ _ _ hkh]
      · simp [hh]

theorem maskVars_lookup_mem (hv : List String) (vars : List (String × String))
    (k : String) (hk : k ∈ hv) :
    lookupVar (maskVars hv vars) k
      = (lookupVar vars k).map (fun _ => encryptedSentinel) := by
  induction hv generalizing vars with
  | nil => cases hk
  | cons h t ih =>
      rw [maskVars_cons]
      by_cases hkt : k ∈ t
      · rw [ih _ hkt]
        by_cases hh : hasKey vars h
        · rw [if_pos hh]
          by_cases hkh : k = h
          · subst hkh
            rw [lookupVar_setVar_self]
            cases lookupVar vars k <;> rfl
          · rw [lookupVar_setVar_ne _ _ _ _ hkh]
        · rw [if_neg hh]
      · have hkh : k = h := by
          rcases List.mem_cons.1 hk with he | ht
          · exact he
          · exact absurd ht hkt
        subst hkh
        by_cases hh : hasKey vars k
        · rw [if_pos hh, maskVars_lookup_not_mem t _ _ hkt, lookupVar_setVar_self]
        · rw [if_neg hh, maskVars_lookup_not_mem t _ _ hkt,
            hasKey_false_lookup vars k (by simpa using hh)]
          rfl

/-! Claim theorems. -/

/-- Claim C1 (counterexample to the claim as stated): a batch holding two
entries for the same `(member, member_type)` pair makes both the POST and
the PUT permission-set operation fail, but the raised exception is the
Python builtin `ValueError`, not a DRF `ValidationError`; the ACL is left
exactly as it was. -/
theorem duplicate_batch_not_validationerror :
    raisesValidationError (permissions aclBefore true HttpMethod.POST dupPermData).2 = false
  ∧ raisesValidationError (permissions aclBefore true HttpMethod.PUT dupPermData).2 = false
  ∧ (permissions aclBefore true HttpMethod.POST dupPermData).2
      = .error (.valueError "There is duplicates in your permissions set.")
  ∧ (permissions aclBefore true HttpMethod.POST dupPermData).1 = aclBefore
  ∧ (permissions aclBefore true HttpMethod.PUT dupPermData).1 = aclBefore :=
  ⟨rfl, rfl, rfl, rfl, rfl⟩

/-- Claim C1 (amended): for every ACL and every batch containing two
entries with the same `(member, member_type)` pair, both POST (merge) and
PUT (replace) fail with the builtin `ValueError` raised by
`__duplicates_check`, and the ACL entry set is exactly what it was before
the call — nothing is inserted and the PUT's clearing of old entries is
rolled back by the enclosing transaction. -/
theorem duplicate_batch_rejected_atomically (acl : ACLState) (data : List ACLEntry)
    (hdup : (data.map entryKey).length ≠ (data.map entryKey).dedup.length) :
    permissions acl true HttpMethod.POST data
        = (acl, .error (.valueError "There is duplicates in your permissions set."))
  ∧ permissions acl true HttpMethod.PUT data
        = (acl, .error (.valueError "There is duplicates in your permissions set.")) := by
  have hd : duplicatesCheck data
      = .error (.valueError "There is duplicates in your permissions set.") := by
    unfold duplicatesCheck
    exact if_pos hdup
  have hps : ∀ a : ACLState, ∀ b : Bool, permissionSet a data b
      = .error (.valueError "There is duplicates in your permissions set.") := by
    intro a b
    unfold permissionSet
    rw [hd]
  constructor
  · have hb : permissionsBody acl true HttpMethod.POST data
        = .error (.valueError "There is duplicates in your permissions set.") := by
      simp only [permissionsBody]
      rw [if_neg (by decide : ¬ (HttpMethod.POST ≠ HttpMethod.GET ∧ true = false)), hps]
    unfold permissions
    rw [hb]
    rfl
  · have hb : permissionsBody acl true HttpMethod.PUT data
        = .error (.valueError "There is duplicates in your permissions set.") := by
      simp only [permissionsBody]
      rw [if_neg (by decide : ¬ (HttpMethod.PUT ≠ HttpMethod.GET ∧ true = false)), hps]
    unfold permissions
    rw [hb]
    rfl

/-- Witness for the amended C1 theorem at a concrete duplicate batch. -/
theorem duplicate_batch_rejected_atomically_witness :
    permissions aclBefore true HttpMethod.POST dupPermData
      = (aclBefore, .error (.valueError "There is duplicates in your permissions set.")) :=
  (duplicate_batch_rejected_atomically aclBefore dupPermData (by decide)).1

/-- Claim C2: replacing the permissions of an entity with a duplicate-free
batch `S` (PUT semantics) leaves the ACL holding exactly `S` and the
unchanged owner, and a subsequent GET returns exactly `S` plus the owner —
every pre-existing entry is gone. -/
theorem replace_then_list_exact (acl : ACLState) (S : List ACLEntry)
    (hnodup : (S.map entryKey).length = (S.map entryKey).dedup.length) :
    permissions acl true HttpMethod.PUT S = (⟨acl.owner, S⟩, .ok (acl.owner, S))
  ∧ permissions ⟨acl.owner, S⟩ true HttpMethod.GET []
      = (⟨acl.owner, S⟩, .ok (acl.owner, S)) := by
  have hd : duplicatesCheck S = .ok () := by
    unfold duplicatesCheck
    exact if_neg (not_not_intro hnodup)
  have hps : permissionSet { acl with entries := ([] : List ACLEntry) } S false
      = .ok ⟨acl.owner, S⟩ := by
    unfold permissionSet
    rw [hd, foldl_step_false, List.nil_append]
  constructor
  · have hb : permissionsBody acl true HttpMethod.PUT S
        = .ok (⟨acl.owner, S⟩, (acl.owner, S)) := by
      simp only [permissionsBody]
      rw [if_neg (by decide : ¬ (HttpMethod.PUT ≠ HttpMethod.GET ∧ true = false)), hps]
      rfl
    unfold permissions
    rw [hb]
    rfl
  · rfl

/-- Witness for the C2 theorem at a concrete replacement batch. -/
theorem replace_then_list_exact_witness :
    permissions aclBefore true HttpMethod.PUT [⟨3, "user", "MASTER"⟩]
      = (⟨7, [⟨3, "user", "MASTER"⟩]⟩, .ok (7, [⟨3, "user", "MASTER"⟩])) :=
  (replace_then_list_exact aclBefore [⟨3, "user", "MASTER"⟩] (by decide)).1

/-- Claim C3: merging a single entry (POST semantics) removes any
pre-existing entry with the same `(member, member_type)` before inserting,
so the key's role afterwards is the incoming role; on an ACL whose keys
are duplicate-free the total entry count is unchanged when the key already
existed and grows by exactly one when it is new. -/
theorem merge_upserts_in_place (acl : ACLState) (e : ACLEntry)
    (hnd : (acl.entries.map entryKey).Nodup) :
    findRole ((permissions acl true HttpMethod.POST [e]).1).entries e.member e.member_type
        = some e.role
  ∧ ((∃ x ∈ acl.entries, entryKey x = entryKey e) →
      ((permissions acl true HttpMethod.POST [e]).1).entries.length
        = acl.entries.length)
  ∧ ((∀ x ∈ acl.entries, entryKey x ≠ entryKey e) →
      ((permissions acl true HttpMethod.POST [e]).1).entries.length
        = acl.entries.length + 1) := by
  refine ⟨?_, ?_, ?_⟩
  · show findRole (removeMatching acl.entries e ++ [e]) e.member e.member_type = some e.role
    exact findRole_remove_append acl.entries e
  · intro hex
    show (removeMatching acl.entries e ++ [e]).length = acl.entries.length
    rw [List.length_append]
    exact removeMatching_length acl.entries e hnd hex
  · intro hall
    show (removeMatching acl.entries e ++ [e]).length = acl.entries.length + 1
    rw [removeMatching_eq_self acl.entries e hall, List.length_append]
    rfl

/-- Witness for the C3 theorem: overwriting an existing member keeps one
entry; adding a new member makes two. -/
theorem merge_upserts_in_place_witness :
    ((permissions ⟨1, [⟨2, "user", "EXECUTOR"⟩]⟩ true HttpMethod.POST
        [⟨2, "user", "MASTER"⟩]).1).entries.length = 1
  ∧ ((permissions ⟨1, [⟨2, "user", "EXECUTOR"⟩]⟩ true HttpMethod.POST
        [⟨3, "team", "MASTER"⟩]).1).entries.length = 2 := by
  constructor
  · exact (merge_upserts_in_place ⟨1, [⟨2, "user", "EXECUTOR"⟩]⟩ ⟨2, "user", "MASTER"⟩
      (by decide)).2.1 (by decide)
  · exact (merge_upserts_in_place ⟨1, [⟨2, "user", "EXECUTOR"⟩]⟩ ⟨3, "team", "MASTER"⟩
      (by decide)).2.2 (by decide)

/-- Claim C4 (counterexample to the claim as stated): a TEMPLATE-kind
periodic-task write supplying a non-empty `inventory` and `mode` is NOT
rejected — `_do_with_vars` succeeds, silently overwriting both fields with
empty strings and taking the project from the referenced template. -/
theorem template_kind_write_not_rejected :
    periodictaskDoWithVars ptTemplateReq
      = .ok ⟨some "TEMPLATE", some "", some "", some ⟨5⟩, some 5⟩ := rfl

/-- Claim C4 (amended): a write whose validated data has
`kind == "TEMPLATE"` (and a template reference) is accepted whatever
`inventory` and `mode` it supplies; the stored task always ends up with
empty `inventory` and empty `mode`, both to be derived from the referenced
template at execution time. -/
theorem template_kind_blanks_inventory_mode (kw : PTValidatedData) (t : TemplateRef)
    (hkind : kw.kind = some "TEMPLATE") (ht : kw.template = some t) :
    periodictaskDoWithVars kw
      = .ok { kw with project := some t.project, inventory := some "", mode := some "" } := by
  unfold periodictaskDoWithVars
  rw [if_pos hkind, ht]

/-- Witness for the amended C4 theorem at a concrete TEMPLATE-kind write. -/
theorem template_kind_blanks_inventory_mode_witness :
    periodictaskDoWithVars ⟨some "TEMPLATE", some "x", some "y", some ⟨3⟩, none⟩
      = .ok ⟨some "TEMPLATE", some "", some "", some ⟨3⟩, some 3⟩ :=
  template_kind_blanks_inventory_mode
    ⟨some "TEMPLATE", some "x", some "y", some ⟨3⟩, none⟩ ⟨3⟩ rfl rfl

/-- Claim C5: rendering an entity's variables replaces the value of every
key in the hidden-key set by the sentinel and passes every other key's
value through unchanged; the stored map is only read, never written
(`maskVars` builds a fresh representation), and the single-variable
renderer of `VariableSerializer` masks by exactly the same rule. -/
theorem render_masks_hidden_keys_only (hv : List String)
    (vars : List (String × String)) (k : String) :
    withVariablesToRepresentation hv none (some vars) = some (maskVars hv vars)
  ∧ (k ∈ hv → lookupVar (maskVars hv vars) k
      = (lookupVar vars k).map (fun _ => encryptedSentinel))
  ∧ (k ∉ hv → lookupVar (maskVars hv vars) k = lookupVar vars k)
  ∧ (∀ value : String, variableToRepresentation hv k value
      = (k, if k ∈ hv then encryptedSentinel else value)) := by
  refine ⟨rfl, maskVars_lookup_mem hv vars k, maskVars_lookup_not_mem hv vars k, ?_⟩
  intro value
  by_cases h : k ∈ hv <;> simp [variableToRepresentation, h]

/-- Witness for the C5 theorem: a hidden `repo_password` renders as the
sentinel while a non-hidden key keeps its literal value. -/
theorem render_masks_hidden_keys_only_witness :
    lookupVar (maskVars ["repo_password"]
        [("repo_password", "secret"), ("repo_branch", "main")]) "repo_password"
      = some encryptedSentinel
  ∧ lookupVar (maskVars ["repo_password"]
        [("repo_password", "secret"), ("repo_branch", "main")]) "repo_branch"
      = some "main" := by
  constructor
  · have h := (render_masks_hidden_keys_only ["repo_password"]
        [("repo_password", "secret"), ("repo_branch", "main")] "repo_password").2.1
        (by decide)
    rw [h]
    rfl
  · have h := (render_masks_hidden_keys_only ["repo_password"]
        [("repo_password", "secret"), ("repo_branch", "main")] "repo_branch").2.2.1
        (by decide)
    rw [h]
    rfl

/-- Claim C6: for a Task- or Module-kind template, the rendering masks the
base `data.vars` with the hidden set handed to the base representation and
masks every option's nested variable map through `set_opts_vars` with that
very same set; a hidden key present in an option's map comes out as the
sentinel. -/
theorem template_options_same_hidden_set (hv : List String) (inst : TemplateInstance)
    (hkind : inst.kind = "Task" ∨ inst.kind = "Module")
    (name : String) (opt : OptionRep) (hopt : (name, opt) ∈ inst.options)
    (vs : List (String × String)) (hvs : opt.vars = some vs)
    (k : String) (hk : k ∈ hv) :
    templateToRepresentation hv inst
        = some ⟨inst.dataVars.map (maskVars hv),
            inst.options.map (fun p => (p.1, setOptsVars hv p.2))⟩
  ∧ (name, { opt with vars := some (maskVars hv vs) })
      ∈ inst.options.map (fun p => (p.1, setOptsVars hv p.2))
  ∧ lookupVar (maskVars hv vs) k
      = (lookupVar vs k).map (fun _ => encryptedSentinel) := by
  refine ⟨?_, ?_, maskVars_lookup_mem hv vs k hk⟩
  · unfold templateToRepresentation
    rw [if_pos hkind]
    rfl
  · have hset : setOptsVars hv opt = { opt with vars := some (maskVars hv vs) } := by
      obtain ⟨v, ex⟩ := opt
      change v = some vs at hvs
      subst hvs
      by_cases hz : vs = []
      · subst hz
        rw [maskVars_nil_vars]
        rfl
      · show (if vs = [] then (⟨some vs, ex⟩ : OptionRep)
            else ⟨some (maskVars hv vs), ex⟩) = ⟨some (maskVars hv vs), ex⟩
        rw [if_neg hz]
    rw [← hset]
    exact List.mem_map_of_mem (fun p : String × OptionRep => (p.1, setOptsVars hv p.2)) hopt

/-- Witness for the C6 theorem: a concrete Task template whose option
hides `repo_password` with the same set as its base variables. -/
theorem template_options_same_hidden_set_witness :
    templateToRepresentation ["repo_password"] tmplInst0
      = some ⟨some [("repo_password", encryptedSentinel)],
          [("opt1", ⟨some [("repo_password", encryptedSentinel)], [("module", "ping")]⟩)]⟩ := by
  have h := (template_options_same_hidden_set ["repo_password"] tmplInst0 (Or.inl rfl)
      "opt1" ⟨some [("repo_password", "p2")], [("module", "ping")]⟩ (by decide)
      [("repo_password", "p2")] rfl "repo_password" (by decide)).1
  rw [h]
  decide

/-- Claim C7 (counterexample to the claim as stated): flipping the
`children` flag of an existing group makes the update fail, but with the
base DRF `ValidationError` (status 400), not the 409 Conflict-style
`ValidationException`; the group (its hosts and subgroups included) is
untouched. -/
theorem group_children_change_not_conflict :
    (withVariablesUpdate group0 ⟨some false, none⟩).2
        = .error (.validationError "Children not allowed to update.")
  ∧ raisesConflict (withVariablesUpdate group0 ⟨some false, none⟩).2 = false
  ∧ (withVariablesUpdate group0 ⟨some false, none⟩).1 = group0 := ⟨rfl, rfl, rfl⟩

/-- Claim C7 (amended): an update that changes the `children` flag of an
existing group fails with `ValidationError` ("Children not allowed to
update.") and leaves the instance — hosts and subgroups included — exactly
as it was; an update that supplies the same flag, or none, is not rejected
by this rule; in every case hosts and subgroups survive unmodified. -/
theorem group_children_flag_immutable (inst : GroupInstance) (d : GroupUpdateData) :
    (∀ b : Bool, d.children = some b → b ≠ inst.children →
        withVariablesUpdate inst d
          = (inst, .error (.validationError "Children not allowed to update.")))
  ∧ ((d.children = some inst.children ∨ d.children = none) →
      withVariablesUpdate inst d = (applyGroupUpdate inst d, .ok ()))
  ∧ (withVariablesUpdate inst d).1.hosts = inst.hosts
  ∧ (withVariablesUpdate inst d).1.groups = inst.groups := by
  refine ⟨?_, ?_, ?_, ?_⟩
  · intro b hb hne
    simp only [withVariablesUpdate, hb, Option.getD_some]
    rw [if_pos hne]
  · intro h
    rcases h with h | h
    · simp only [withVariablesUpdate, h, Option.getD_some]
      rw [if_neg (by simp)]
    · simp only [withVariablesUpdate, h, Option.getD_none]
      rw [if_neg (by simp)]
  · simp only [withVariablesUpdate]
    split <;> rfl
  · simp only [withVariablesUpdate]
    split <;> rfl

/-- Witness for the amended C7 theorem: a flip is rejected with the
instance intact; a same-value write goes through. -/
theorem group_children_flag_immutable_witness :
    withVariablesUpdate group0 ⟨some false, none⟩
        = (group0, .error (.validationError "Children not allowed to update."))
  ∧ withVariablesUpdate group0 ⟨some true, some "g2"⟩
        = (⟨true, [1, 2], [3], "g2"⟩, .ok ()) := by
  constructor
  · exact (group_children_flag_immutable group0 ⟨some false, none⟩).1 false rfl (by decide)
  · have h := (group_children_flag_immutable group0 ⟨some true, some "g2"⟩).2.1 (Or.inl rfl)
    rw [h]
    rfl

/-- Claim C8: when the supplied inventory field parses as an id, the
entity is resolved and a viewability failure aborts the execution with
`PermissionDenied` before any dispatch; when it does not parse (inline
payload), no permission check happens and the dispatch proceeds with the
raw payload. -/
theorem execution_inventory_permission_gate (invIds : List Int) (viewable : Int → Bool)
    (projectId : Nat) (templateId : Option Nat) (historyId : Nat) (invField : String) :
    (∀ i : Int, pyIntOfString invField = some i → i ∈ invIds → viewable i = false →
        projectExecution invIds viewable projectId templateId historyId invField
          = .error (.permissionDenied "You do not have permission to inventory."))
  ∧ (pyIntOfString invField = none →
      projectExecution invIds viewable projectId templateId historyId invField
        = .ok (.raw invField, mkExecResult projectId templateId historyId)) := by
  constructor
  · intro i hi hmem hv
    simp only [projectExecution, hi]
    rw [if_pos hmem, if_neg (by simp [hv])]
  · intro h
    simp only [projectExecution, h]

/-- Witness for the C8 theorem: a numeric inventory id belonging to a
non-viewing executor is denied; a non-numeric inline payload dispatches. -/
theorem execution_inventory_permission_gate_witness :
    projectExecution [7] (fun _ => false) 1 none 42 "7"
        = .error (.permissionDenied "You do not have permission to inventory.")
  ∧ projectExecution [7] (fun _ => false) 1 none 42 "host1,"
        = .ok (.raw "host1,", mkExecResult 1 none 42) := by
  constructor
  · exact (execution_inventory_permission_gate [7] (fun _ => false) 1 none 42 "7").1 7
      (by decide) (by decide) rfl
  · exact (execution_inventory_permission_gate [7] (fun _ => false) 1 none 42
      "host1,").2 (by decide)

/-- Claim C9: a GET on the permissions endpoint never consults
`manageable_by` and returns all entries plus the owner with the ACL
untouched; every mutating verb (POST, PUT, DELETE) from a non-managing
actor fails with `PermissionDenied` before any entry is modified. -/
theorem list_free_mutate_gated (acl : ACLState) (manageable : Bool)
    (data : List ACLEntry) :
    permissions acl manageable HttpMethod.GET data = (acl, .ok (acl.owner, acl.entries))
  ∧ permissions acl false HttpMethod.POST data
      = (acl, .error (.permissionDenied perms_msg))
  ∧ permissions acl false HttpMethod.PUT data
      = (acl, .error (.permissionDenied perms_msg))
  ∧ permissions acl false HttpMethod.DELETE data
      = (acl, .error (.permissionDenied perms_msg)) :=
  ⟨rfl, rfl, rfl, rfl⟩

/-- Claim C10: a template whose kind is neither "Task" nor "Module" is
rendered as the empty `OrderedDict()` — no fields, variables or options at
all. -/
theorem template_unknown_kind_renders_empty (hv : List String)
    (inst : TemplateInstance) (h1 : inst.kind ≠ "Task") (h2 : inst.kind ≠ "Module") :
    templateToRepresentation hv inst = none := by
  unfold templateToRepresentation
  rw [if_neg]
  rintro (h | h)
  · exact h1 h
  · exact h2 h

/-- Witness for the C10 theorem at a concrete unknown kind. -/
theorem template_unknown_kind_renders_empty_witness :
    templateToRepresentation ["repo_password"]
        ⟨"Backup", ["repo_password"], some [("repo_password", "p1")],
          [("opt1", ⟨some [("repo_password", "p2")], []⟩)]⟩
      = none :=
  template_unknown_kind_renders_empty ["repo_password"]
    ⟨"Backup", ["repo_password"], some [("repo_password", "p1")],
      [("opt1", ⟨some [("repo_password", "p2")], []⟩)]⟩ (by decide) (by decide)

end Polemarch
